import Mathlib

/-!
Verification of the GRIB2 decoder core (xjr1300/grib2).

This file shallowly embeds the two core components of the crate:

* the lazy run-length grid-value decoder of
  `src/reader/grib2_value_iter.rs` (`Grib2ValueIter::new`,
  `Grib2ValueIter::next`, `retrieve_run_length`, `expand_run_length`), and
* the section/template binary parsers of `grib2/src/reader/sections.rs`
  that the claims touch (`validate_template_number!`,
  `Template3_0/4_0/5_200/7_200::from_reader`, `Section7::from_reader`),
  together with the construction-time cross-section count check of
  `Grib2Reader::new` and the section sequencing of `FPprReader::new`.

Machine integers (`u8`/`u16`/`u32`/`usize`) are modelled as `Nat`.  The
crate's arithmetic stays far below the `u32` range on the inputs the
claims quantify over, and a Rust debug build panics rather than wraps on
overflow, so unbounded `Nat` arithmetic with Rust's truncated `Nat.sub`
for the one subtraction that could underflow is the faithful choice.
Grid coordinates are kept in the source's integer 10^-6-degree units
(the fields `current_lat`/`current_lon`); the final `f64` division by
1e6 performed when a value is emitted is strictly monotone and injective
on the `u32` range, so coordinate equalities proved here transfer to the
emitted floating-point coordinates verbatim.
-/

namespace Grib2

/-- Error taxonomy of the crate (`ReaderError` in `reader/mod.rs`):
`NotFount` (file missing), `ReadError` (I/O or short read),
`Unexpected` (bytes read but a format invariant is violated).
Messages are dropped; only the variant matters for the claims. -/
inductive RErr where
  | notFound
  | readError
  | unexpected
deriving DecidableEq, Repr

/-!
## Run-length expansion (`expand_run_length`, grib2_value_iter.rs:263-282)
-/

/-- The mapped terms of `values[1..].iter().enumerate().map(|(i, &v)|
lngu.pow(i as u32) * (v - (maxv + 1)))` from `expand_run_length`.
Subtraction is `Nat.sub`; `retrieve_run_length` guarantees every
trailing symbol exceeds `maxv`, so it never truncates on real groups. -/
def digitTerms (ds : List Nat) (maxv lngu : Nat) : List Nat :=
  ds.enum.map (fun p => lngu ^ p.1 * (p.2 - (maxv + 1)))

/-- `expand_run_length(values, maxv, lngu)` (grib2_value_iter.rs:263-282).
Returns `none` exactly where the Rust function panics: on an empty
slice (the `values[0]` index) or when the leading symbol violates the
`assert!(values[0] <= maxv)` assertion.  Otherwise returns the level
value and the repeat count. -/
def expandRunLength (values : List Nat) (maxv lngu : Nat) : Option (Nat × Nat) :=
  match values with
  | [] => none
  | v0 :: rest =>
    if v0 ≤ maxv then
      if rest.isEmpty then some (v0, 1)
      else some (v0, (digitTerms rest maxv lngu).sum + 1)
    else none

/-- Recursive restatement of the run-length digit sum: base-`lngu`
positional value of the digit string, used to reason about
`digitTerms` by structural induction. -/
def digitSum (ds : List Nat) (maxv lngu : Nat) : Nat :=
  match ds with
  | [] => 0
  | d :: rest => (d - (maxv + 1)) + lngu * digitSum rest maxv lngu

theorem enumFrom_digit_sum (maxv lngu : Nat) (ds : List Nat) : ∀ n : Nat,
    ((List.enumFrom n ds).map (fun p => lngu ^ p.1 * (p.2 - (maxv + 1)))).sum =
      lngu ^ n * digitSum ds maxv lngu := by
  induction ds with
  | nil => intro n; simp [digitSum]
  | cons d ds ih =>
    intro n
    simp only [List.enumFrom, List.map_cons, List.sum_cons, ih (n + 1)]
    have h1 : digitSum (d :: ds) maxv lngu =
        (d - (maxv + 1)) + lngu * digitSum ds maxv lngu := rfl
    rw [h1, pow_succ]
    ring

theorem digitTerms_sum (maxv lngu : Nat) (ds : List Nat) :
    (digitTerms ds maxv lngu).sum = digitSum ds maxv lngu := by
  have h := enumFrom_digit_sum maxv lngu ds 0
  simpa [digitTerms, List.enum] using h

theorem digitSum_int (maxv lngu : Nat) (ds : List Nat)
    (hd : ∀ d ∈ ds, maxv < d) :
    ((digitSum ds maxv lngu : Nat) : ℤ) =
      ∑ i ∈ Finset.range ds.length,
        (lngu : ℤ) ^ i * ((ds.getD i 0 : ℤ) - (maxv + 1)) := by
  induction ds with
  | nil => simp [digitSum]
  | cons d ds ih =>
    have hdm : maxv + 1 ≤ d := hd d (List.mem_cons_self d ds)
    have ih' := ih (fun e he => hd e (List.mem_cons_of_mem d he))
    have h1 : digitSum (d :: ds) maxv lngu =
        (d - (maxv + 1)) + lngu * digitSum ds maxv lngu := rfl
    rw [h1, List.length_cons, Finset.sum_range_succ']
    push_cast [Nat.cast_sub hdm]
    rw [ih']
    simp only [List.getD_cons_succ, List.getD_cons_zero, pow_zero, one_mul]
    have h2 : ∑ i ∈ Finset.range ds.length,
        (lngu : ℤ) ^ (i + 1) * ((ds.getD i 0 : ℤ) - ((maxv : ℤ) + 1)) =
        ∑ i ∈ Finset.range ds.length,
          (lngu : ℤ) * ((lngu : ℤ) ^ i * ((ds.getD i 0 : ℤ) - ((maxv : ℤ) + 1))) :=
      Finset.sum_congr rfl (fun i _ => by ring)
    rw [h2, ← Finset.mul_sum]
    ring

/-- Claim C1: for a run-length group `v0 :: ds` whose level symbol
satisfies `v0 ≤ maxv` and whose trailing digit symbols all exceed
`maxv`, `expand_run_length` returns level `v0` and repeat count
`1 + Σᵢ lngu^(i-1) * (dᵢ - (maxv+1))` (1-based positions, stated here
0-based over `ℤ` so that the subtraction is the genuine difference);
a group with no trailing digits yields repeat count exactly 1.  The
four canonical NBIT=4, MAXV=10, LNGU=5 vectors evaluate as specified. -/
theorem expand_run_length_spec (v0 : Nat) (ds : List Nat) (maxv lngu : Nat)
    (h0 : v0 ≤ maxv) (hd : ∀ d ∈ ds, maxv < d) :
    (∃ times : Nat,
        expandRunLength (v0 :: ds) maxv lngu = some (v0, times) ∧
        (times : ℤ) = 1 + ∑ i ∈ Finset.range ds.length,
            (lngu : ℤ) ^ i * ((ds.getD i 0 : ℤ) - (maxv + 1))) ∧
    (ds = [] → expandRunLength (v0 :: ds) maxv lngu = some (v0, 1)) ∧
    expandRunLength [3] 10 5 = some (3, 1) ∧
    expandRunLength [9, 12] 10 5 = some (9, 2) ∧
    expandRunLength [4, 15] 10 5 = some (4, 5) ∧
    expandRunLength [0, 13, 12] 10 5 = some (0, 8) := by
  refine ⟨?_, ?_, by decide, by decide, by decide, by decide⟩
  · refine ⟨(if ds.isEmpty then 1 else (digitTerms ds maxv lngu).sum + 1), ?_, ?_⟩
    · cases ds with
      | nil => simp [expandRunLength, h0]
      | cons d ds => simp [expandRunLength, h0]
    · cases ds with
      | nil => simp [digitSum]
      | cons d ds =>
        simp only [List.isEmpty_cons, if_neg Bool.false_ne_true]
        rw [Nat.cast_add, Nat.cast_one, digitTerms_sum, digitSum_int _ _ _ hd]
        ring
  · intro h
    subst h
    simp [expandRunLength, h0]

/-- Witness for `expand_run_length_spec` at the group `[0, 13, 12]`
with `maxv = 10`, `lngu = 5`. -/
theorem expand_run_length_spec_witness :
    ∃ times : Nat,
        expandRunLength (0 :: [13, 12]) 10 5 = some (0, times) ∧
        (times : ℤ) = 1 + ∑ i ∈ Finset.range [13, 12].length,
            (5 : ℤ) ^ i * (([13, 12].getD i 0 : ℤ) - (10 + 1)) :=
  (expand_run_length_spec 0 [13, 12] 10 5 (by decide) (by decide)).1



/-!
## The grid-value iterator (`Grib2ValueIter`, grib2_value_iter.rs)

The `FileReader` (a `BufReader<File>` positioned at the start of the
section-7 run-length octet stream) is modelled as the byte list `data`
(the file's tail from that position onward — it extends past the
`total_bytes`-byte compressed payload into the following sections,
exactly as the real file does) together with the cursor index `pos`.
All other fields mirror the struct `Grib2ValueIter` field for field.
-/

/-- A decoded grid value (`Grib2Value`).  Coordinates are kept in the
source's integer 10^-6-degree units; the emitted `f64` is
`lat as f64 / 1_000_000.0`, an injective map on this range. -/
structure GValue where
  lat : Nat
  lon : Nat
  level : Nat
  value : Option Nat
deriving DecidableEq, Repr

/-- The iterator state (`struct Grib2ValueIter`), plus the modelled byte
stream `data`/`pos` standing for the `FileReader`. -/
structure IterState where
  data : List Nat
  pos : Nat
  totalBytes : Nat
  numberOfPoints : Nat
  lonMin : Nat
  lonMax : Nat
  latInc : Nat
  lonInc : Nat
  maxv : Nat
  lngu : Nat
  levelValues : List Nat
  readBytes : Nat
  currentLat : Nat
  currentLon : Nat
  currentLevel : Nat
  currentValue : Option Nat
  returningTimes : Nat
  numberOfReads : Nat
deriving DecidableEq, Repr

/-- `Grib2ValueIter::new` (grib2_value_iter.rs:58-90): `lngu` is
computed as `2^nbit - 1 - maxv`, the cursor starts at the run-length
stream start, the traversal state at the first grid point. -/
def Grib2ValueIter.new (data : List Nat)
    (totalBytes numberOfPoints latMax lonMin lonMax latInc lonInc nbit maxv : Nat)
    (levelValues : List Nat) : IterState where
  data := data
  pos := 0
  totalBytes := totalBytes
  numberOfPoints := numberOfPoints
  lonMin := lonMin
  lonMax := lonMax
  latInc := latInc
  lonInc := lonInc
  maxv := maxv
  lngu := 2 ^ nbit - 1 - maxv
  levelValues := levelValues
  readBytes := 0
  currentLat := latMax
  currentLon := lonMin
  currentLevel := 0
  currentValue := none
  returningTimes := 0
  numberOfReads := 0

/-- The loop body of `retrieve_run_length` (grib2_value_iter.rs:111-124)
over the remaining byte stream: repeatedly `read_u8`; a symbol `≤ maxv`
read while the accumulator is non-empty terminates the group and is
pushed back via `seek_relative(-1)`, so it is not consumed; reaching
the end of the stream is the `ReadError` of a failed `read_exact`
(which consumes nothing).  Returns the collected symbols and the net
number of bytes consumed. -/
def retrieveLoop (maxv : Nat) : List Nat → List Nat → Except RErr (List Nat) × Nat
  | [], _acc => (Except.error RErr.readError, 0)
  | v :: rest, acc =>
    if v ≤ maxv ∧ acc ≠ [] then (Except.ok acc, 0)
    else
      match retrieveLoop maxv rest (acc ++ [v]) with
      | (r, k) => (r, k + 1)

/-- `Grib2ValueIter::retrieve_run_length` (grib2_value_iter.rs:111-124).
Each `read_u8` advances `read_bytes`; the final `seek_relative(-1)`
takes one back, so the net `read_bytes` increase equals the distance
the cursor moved.  On a read failure the bytes already consumed by this
call stay consumed, exactly as in the source. -/
def retrieveRunLength (s : IterState) : Except RErr (List Nat) × IterState :=
  match retrieveLoop s.maxv (s.data.drop s.pos) [] with
  | (r, k) => (r, { s with pos := s.pos + k, readBytes := s.readBytes + k })

/-- Outcome of the group-decoding phase of `next`: a new state, an
error surfaced through the item channel, or a Rust panic
(`assert!`/index out of bounds). -/
inductive DecodeOut where
  | ok (s : IterState)
  | err (e : RErr) (s : IterState)
  | panics
deriving Repr

/-- The `if self.returning_times == 0 { ... }` block of `next`
(grib2_value_iter.rs:149-165): fetch a group, expand it, and update
`current_level`, `current_value` (level 0 maps to `None`, level ≥ 1
indexes `level_values[level - 1]`, out of bounds being a panic) and
`returning_times`. -/
def decodePhase (s : IterState) : DecodeOut :=
  if s.returningTimes = 0 then
    match retrieveRunLength s with
    | (Except.error e, s1) => DecodeOut.err e s1
    | (Except.ok vs, s1) =>
      match expandRunLength vs s.maxv s.lngu with
      | none => DecodeOut.panics
      | some (level, times) =>
        if level = 0 then
          DecodeOut.ok { s1 with currentLevel := level, currentValue := none,
                                 returningTimes := times }
        else
          match s1.levelValues.get? (level - 1) with
          | some pv => DecodeOut.ok { s1 with currentLevel := level,
                                              currentValue := some pv,
                                              returningTimes := times }
          | none => DecodeOut.panics
  else DecodeOut.ok s

/-- The emission tail of `next` (grib2_value_iter.rs:167-184): build the
result from the current state, decrement `returning_times`, advance the
traversal (west→east, wrapping to the next row southwards when the
longitude would pass `lon_max`), and count the read. -/
def emitStep (s : IterState) : GValue × IterState :=
  let v : GValue := ⟨s.currentLat, s.currentLon, s.currentLevel, s.currentValue⟩
  if s.lonMax < s.currentLon + s.lonInc then
    (v, { s with returningTimes := s.returningTimes - 1,
                 currentLat := s.currentLat - s.latInc,
                 currentLon := s.lonMin,
                 numberOfReads := s.numberOfReads + 1 })
  else
    (v, { s with returningTimes := s.returningTimes - 1,
                 currentLon := s.currentLon + s.lonInc,
                 numberOfReads := s.numberOfReads + 1 })

/-- One observable outcome of `Iterator::next`: `done` is `None`,
`item` is `Some(Ok(_))`, `error` is `Some(Err(_))`, `panics` is a Rust
panic inside the call. -/
inductive NextResult where
  | done
  | item (v : GValue)
  | error (e : RErr)
  | panics
deriving DecidableEq, Repr

/-- `Grib2ValueIter::next` (grib2_value_iter.rs:130-187). -/
def next (s : IterState) : NextResult × IterState :=
  if s.returningTimes = 0 ∧ s.totalBytes ≤ s.readBytes then
    if s.numberOfReads = s.numberOfPoints then (NextResult.done, s)
    else (NextResult.error RErr.unexpected, s)
  else
    match decodePhase s with
    | DecodeOut.err e s1 => (NextResult.error e, s1)
    | DecodeOut.panics => (NextResult.panics, s)
    | DecodeOut.ok s1 =>
      match emitStep s1 with
      | (v, s2) => (NextResult.item v, s2)

/-- Fuelled driver: call `next` until it returns `None` (`done`),
collecting every emitted outcome.  The boolean records whether `None`
was actually reached; a panic aborts the run. -/
def consume : Nat → IterState → List NextResult × IterState × Bool
  | 0, s => ([], s, false)
  | fuel + 1, s =>
    match next s with
    | (NextResult.done, s1) => ([], s1, true)
    | (NextResult.panics, s1) => ([NextResult.panics], s1, false)
    | (r, s1) =>
      match consume fuel s1 with
      | (rs, s2, b) => (r :: rs, s2, b)

/-- The successfully decoded values of an outcome list. -/
def itemsOf : List NextResult → List GValue
  | [] => []
  | NextResult.item v :: rs => v :: itemsOf rs
  | _ :: rs => itemsOf rs

/-!
## Structural lemmas about the decoder loop
-/

theorem retrieveLoop_ok (maxv : Nat) :
    ∀ (rem acc vs : List Nat) (k : Nat),
      retrieveLoop maxv rem acc = (Except.ok vs, k) →
      vs.length = acc.length + k ∧ k < rem.length ∧
        (∃ t ∈ rem.get? k, t ≤ maxv) ∧ vs ≠ [] := by
  intro rem
  induction rem with
  | nil =>
    intro acc vs k h
    simp only [retrieveLoop] at h
    exact absurd (congrArg Prod.fst h) (by simp)
  | cons v rest ih =>
    intro acc vs k h
    simp only [retrieveLoop] at h
    by_cases hc : v ≤ maxv ∧ acc ≠ []
    · rw [if_pos hc] at h
      have h1 : Except.ok (ε := RErr) acc = Except.ok vs := congrArg Prod.fst h
      have h2 : (0 : Nat) = k := congrArg Prod.snd h
      obtain rfl : acc = vs := by injection h1
      subst h2
      exact ⟨by omega, by simp, ⟨v, by simp, hc.1⟩, hc.2⟩
    · rw [if_neg hc] at h
      rcases hL : retrieveLoop maxv rest (acc ++ [v]) with ⟨r, k0⟩
      rw [hL] at h
      have h1 : r = Except.ok vs := congrArg Prod.fst h
      have h2 : k0 + 1 = k := congrArg Prod.snd h
      subst h1
      obtain ⟨ha, hb, ht, hne⟩ := ih (acc ++ [v]) vs k0 hL
      rw [List.length_append, List.length_singleton] at ha
      subst h2
      refine ⟨by omega, by simp only [List.length_cons]; omega, ?_, hne⟩
      rw [List.get?_cons_succ]
      exact ht

theorem retrieveLoop_tail (maxv : Nat) :
    ∀ (rem acc vs : List Nat) (k : Nat), (∀ d ∈ acc.drop 1, maxv < d) →
      retrieveLoop maxv rem acc = (Except.ok vs, k) →
      ∀ d ∈ vs.drop 1, maxv < d := by
  intro rem
  induction rem with
  | nil =>
    intro acc vs k hacc h
    simp only [retrieveLoop] at h
    exact absurd (congrArg Prod.fst h) (by simp)
  | cons v rest ih =>
    intro acc vs k hacc h
    simp only [retrieveLoop] at h
    by_cases hc : v ≤ maxv ∧ acc ≠ []
    · rw [if_pos hc] at h
      have h1 : Except.ok (ε := RErr) acc = Except.ok vs := congrArg Prod.fst h
      obtain rfl : acc = vs := by injection h1
      exact hacc
    · rw [if_neg hc] at h
      rcases hL : retrieveLoop maxv rest (acc ++ [v]) with ⟨r, k0⟩
      rw [hL] at h
      have h1 : r = Except.ok vs := congrArg Prod.fst h
      subst h1
      refine ih (acc ++ [v]) vs k0 ?_ hL
      intro d hd
      cases acc with
      | nil => simp at hd
      | cons a as =>
        simp only [List.cons_append, List.drop_succ_cons, List.drop_zero] at hd
        rcases List.mem_append.mp hd with hmem | hmem
        · exact hacc d (by simpa using hmem)
        · have hgt : ¬ v ≤ maxv := fun hle => hc ⟨hle, by simp⟩
          simp only [List.mem_singleton] at hmem
          omega

theorem retrieveRunLength_state (s : IterState) :
    ∃ p, (retrieveRunLength s).2 =
      { s with pos := p, readBytes := s.readBytes + (p - s.pos) } := by
  unfold retrieveRunLength
  rcases retrieveLoop s.maxv (s.data.drop s.pos) [] with ⟨r, k⟩
  exact ⟨s.pos + k, by simp⟩

theorem retrieveRunLength_ok (s : IterState) (vs : List Nat) (s1 : IterState)
    (h : retrieveRunLength s = (Except.ok vs, s1)) :
    s1 = { s with pos := s.pos + vs.length, readBytes := s.readBytes + vs.length } ∧
      vs ≠ [] ∧ ∃ t ∈ s.data.get? (s.pos + vs.length), t ≤ s.maxv := by
  unfold retrieveRunLength at h
  rcases hL : retrieveLoop s.maxv (s.data.drop s.pos) [] with ⟨r, k⟩
  rw [hL] at h
  have h1 : r = Except.ok vs := congrArg Prod.fst h
  have h2 : ({ s with pos := s.pos + k, readBytes := s.readBytes + k } : IterState) = s1 :=
    congrArg Prod.snd h
  subst h1
  obtain ⟨ha, hb, ht, hne⟩ := retrieveLoop_ok s.maxv (s.data.drop s.pos) [] vs k hL
  simp only [List.length_nil, Nat.zero_add] at ha
  subst ha
  rw [List.get?_drop] at ht
  exact ⟨h2.symm, hne, ht⟩

/-- The shape of a state produced by the decode phase: only the cursor,
the byte accounting and the run state can change. -/
theorem decodePhase_ok_shape {s s1 : IterState} (h : decodePhase s = DecodeOut.ok s1) :
    ∃ p rb lv cv rt,
      s1 = { s with pos := p, readBytes := rb, currentLevel := lv,
                    currentValue := cv, returningTimes := rt } := by
  unfold decodePhase at h
  split at h
  · split at h
    case h_1 r s2 e s3 heq =>
      exact absurd h (by simp)
    case h_2 r s2 vs s3 heq =>
      obtain ⟨p2, hs2⟩ := retrieveRunLength_state s
      rw [heq] at hs2
      simp only at hs2
      split at h
      · exact absurd h (by simp)
      case h_2 lt level times hlt =>
        split at h
        · have h4 := (DecodeOut.ok.injEq .. ).mp h
          subst h4
          subst hs2
          exact ⟨p2, _, _, _, _, rfl⟩
        · split at h
          case h_1 pv hpv =>
            have h4 := (DecodeOut.ok.injEq .. ).mp h
            subst h4
            subst hs2
            exact ⟨p2, _, _, _, _, rfl⟩
          case h_2 hpv =>
            exact absurd h (by simp)
  · have h4 := (DecodeOut.ok.injEq .. ).mp h
    subst h4
    exact ⟨s.pos, s.readBytes, s.currentLevel, s.currentValue, s.returningTimes, rfl⟩

theorem decodePhase_err_shape {s s1 : IterState} {e : RErr}
    (h : decodePhase s = DecodeOut.err e s1) :
    ∃ p rb, s1 = { s with pos := p, readBytes := rb } := by
  unfold decodePhase at h
  split at h
  · split at h
    case h_1 r s2 e2 s3 heq =>
      obtain ⟨p2, hs2⟩ := retrieveRunLength_state s
      rw [heq] at hs2
      simp only at hs2
      have h4 := (DecodeOut.err.injEq .. ).mp h
      obtain ⟨-, rfl⟩ := h4
      subst hs2
      exact ⟨p2, _, rfl⟩
    case h_2 r s2 vs s3 heq =>
      split at h
      · exact absurd h (by simp)
      case h_2 lt level times hlt =>
        split at h
        · exact absurd h (by simp)
        · split at h
          case h_1 pv hpv => exact absurd h (by simp)
          case h_2 hpv => exact absurd h (by simp)
  · exact absurd h (by simp)

theorem next_guard_true {s : IterState} (h1 : s.returningTimes = 0)
    (h2 : s.totalBytes ≤ s.readBytes) :
    next s = if s.numberOfReads = s.numberOfPoints then (NextResult.done, s)
             else (NextResult.error RErr.unexpected, s) := by
  unfold next
  rw [if_pos ⟨h1, h2⟩]

theorem next_guard_false {s : IterState}
    (h1 : ¬ (s.returningTimes = 0 ∧ s.totalBytes ≤ s.readBytes)) :
    next s = match decodePhase s with
      | DecodeOut.err e s1 => (NextResult.error e, s1)
      | DecodeOut.panics => (NextResult.panics, s)
      | DecodeOut.ok s1 => (NextResult.item (emitStep s1).1, (emitStep s1).2) := by
  unfold next
  rw [if_neg h1]

theorem next_done_eq {s s1 : IterState} (h : next s = (NextResult.done, s1)) :
    s1 = s ∧ s.numberOfReads = s.numberOfPoints := by
  by_cases hg : s.returningTimes = 0 ∧ s.totalBytes ≤ s.readBytes
  · rw [next_guard_true hg.1 hg.2] at h
    by_cases h2 : s.numberOfReads = s.numberOfPoints
    · rw [if_pos h2] at h
      exact ⟨(congrArg Prod.snd h).symm, h2⟩
    · rw [if_neg h2] at h
      simp at h
  · rw [next_guard_false hg] at h
    cases hd : decodePhase s <;> rw [hd] at h <;> simp at h

theorem next_panics_eq {s s1 : IterState} (h : next s = (NextResult.panics, s1)) :
    s1 = s := by
  by_cases hg : s.returningTimes = 0 ∧ s.totalBytes ≤ s.readBytes
  · rw [next_guard_true hg.1 hg.2] at h
    by_cases h2 : s.numberOfReads = s.numberOfPoints
    · rw [if_pos h2] at h; simp at h
    · rw [if_neg h2] at h; simp at h
  · rw [next_guard_false hg] at h
    cases hd : decodePhase s <;> rw [hd] at h <;> simp at h
    exact h.symm

theorem next_item_eq {s : IterState} {v : GValue} {s1 : IterState}
    (h : next s = (NextResult.item v, s1)) :
    ¬ (s.returningTimes = 0 ∧ s.totalBytes ≤ s.readBytes) ∧
      ∃ s2, decodePhase s = DecodeOut.ok s2 ∧ emitStep s2 = (v, s1) := by
  by_cases hg : s.returningTimes = 0 ∧ s.totalBytes ≤ s.readBytes
  · rw [next_guard_true hg.1 hg.2] at h
    by_cases h2 : s.numberOfReads = s.numberOfPoints
    · rw [if_pos h2] at h; simp at h
    · rw [if_neg h2] at h; simp at h
  · rw [next_guard_false hg] at h
    cases hd : decodePhase s with
    | ok s2 =>
      rw [hd] at h
      refine ⟨hg, s2, rfl, ?_⟩
      simp only at h
      have hv : NextResult.item (emitStep s2).1 = NextResult.item v := congrArg Prod.fst h
      have hs : (emitStep s2).2 = s1 := congrArg Prod.snd h
      have hv2 : (emitStep s2).1 = v := by injection hv
      calc emitStep s2 = ((emitStep s2).1, (emitStep s2).2) := rfl
        _ = (v, s1) := by rw [hv2, hs]
    | err e2 s2 => rw [hd] at h; simp at h
    | panics => rw [hd] at h; simp at h

theorem next_error_eq {s s1 : IterState} {e : RErr}
    (h : next s = (NextResult.error e, s1)) :
    (s1 = s ∧ e = RErr.unexpected ∧ s.returningTimes = 0 ∧ s.totalBytes ≤ s.readBytes ∧
       s.numberOfReads ≠ s.numberOfPoints) ∨
    decodePhase s = DecodeOut.err e s1 := by
  by_cases hg : s.returningTimes = 0 ∧ s.totalBytes ≤ s.readBytes
  · rw [next_guard_true hg.1 hg.2] at h
    by_cases h2 : s.numberOfReads = s.numberOfPoints
    · rw [if_pos h2] at h; simp at h
    · rw [if_neg h2] at h
      have he : NextResult.error RErr.unexpected = NextResult.error e := congrArg Prod.fst h
      have he2 : RErr.unexpected = e := by injection he
      exact Or.inl ⟨(congrArg Prod.snd h).symm, he2.symm, hg.1, hg.2, h2⟩
  · rw [next_guard_false hg] at h
    cases hd : decodePhase s with
    | err e2 s2 =>
      rw [hd] at h
      simp only at h
      have he : NextResult.error e2 = NextResult.error e := congrArg Prod.fst h
      have he2 : e2 = e := by injection he
      have hs : s2 = s1 := congrArg Prod.snd h
      subst he2; subst hs
      exact Or.inr rfl
    | ok s2 => rw [hd] at h; simp at h
    | panics => rw [hd] at h; simp at h

/-- `next` never touches the grid geometry, the point count, the level
table or the byte budget, and it increments `number_of_reads` exactly
when it emits a value. -/
theorem next_fields {s : IterState} {r : NextResult} {s1 : IterState}
    (h : next s = (r, s1)) :
    s1.numberOfPoints = s.numberOfPoints ∧ s1.levelValues = s.levelValues ∧
      s1.numberOfReads = (match r with
        | NextResult.item _ => s.numberOfReads + 1
        | _ => s.numberOfReads) := by
  cases r with
  | done =>
    obtain ⟨h1, -⟩ := next_done_eq h
    subst h1; exact ⟨rfl, rfl, rfl⟩
  | panics =>
    have h1 := next_panics_eq h
    subst h1; exact ⟨rfl, rfl, rfl⟩
  | item v =>
    obtain ⟨-, s2, hd, hE⟩ := next_item_eq h
    obtain ⟨p, rb, lv, cv, rt, hs2⟩ := decodePhase_ok_shape hd
    have hs1 : s1 = (emitStep s2).2 := (congrArg Prod.snd hE).symm
    subst hs1; subst hs2
    unfold emitStep
    split <;> simp
  | error e =>
    rcases next_error_eq h with ⟨h1, -, -, -, -⟩ | hd
    · subst h1; exact ⟨rfl, rfl, rfl⟩
    · obtain ⟨p, rb, hs1⟩ := decodePhase_err_shape hd
      subst hs1; exact ⟨rfl, rfl, rfl⟩

theorem consume_done_count :
    ∀ (fuel : Nat) (s : IterState) (rs : List NextResult) (s1 : IterState),
      consume fuel s = (rs, s1, true) →
      s.numberOfReads + (itemsOf rs).length = s.numberOfPoints := by
  intro fuel
  induction fuel with
  | zero =>
    intro s rs s1 h
    simp only [consume] at h
    have hb : false = true := congrArg (fun x => x.2.2) h
    simp at hb
  | succ fuel ih =>
    intro s rs s1 h
    simp only [consume] at h
    rcases hn : next s with ⟨r, s2⟩
    rw [hn] at h
    cases r with
    | done =>
      simp only at h
      have hrs : ([] : List NextResult) = rs := congrArg (fun x => x.1) h
      obtain ⟨-, h2⟩ := next_done_eq hn
      rw [← hrs]
      simpa [itemsOf] using h2
    | panics =>
      have hb : false = true := congrArg (fun x => x.2.2) h
      simp at hb
    | item v =>
      simp only at h
      rcases hc : consume fuel s2 with ⟨rs2, s3, b⟩
      rw [hc] at h
      have hrs : NextResult.item v :: rs2 = rs := congrArg (fun x => x.1) h
      have hb : b = true := congrArg (fun x => x.2.2) h
      subst hb
      have hih := ih s2 rs2 s3 hc
      obtain ⟨hp, -, hr⟩ := next_fields hn
      rw [← hrs]
      simp only [itemsOf, List.length_cons]
      simp only at hr
      omega
    | error e =>
      simp only at h
      rcases hc : consume fuel s2 with ⟨rs2, s3, b⟩
      rw [hc] at h
      have hrs : NextResult.error e :: rs2 = rs := congrArg (fun x => x.1) h
      have hb : b = true := congrArg (fun x => x.2.2) h
      subst hb
      have hih := ih s2 rs2 s3 hc
      obtain ⟨hp, -, hr⟩ := next_fields hn
      rw [← hrs]
      simp only [itemsOf]
      simp only at hr
      omega

/-!
## Level/value coherence (claim C4 machinery)
-/

/-- The emitted pair `(current_level, current_value)` is always the
image of the level table: level 0 carries no value, a positive level
carries `level_values[level - 1]`. -/
def levelInv (s : IterState) : Prop :=
  (s.currentLevel = 0 → s.currentValue = none) ∧
  (1 ≤ s.currentLevel → s.currentValue = s.levelValues.get? (s.currentLevel - 1))

theorem levelInv_congr {s t : IterState} (h1 : t.currentLevel = s.currentLevel)
    (h2 : t.currentValue = s.currentValue) (h3 : t.levelValues = s.levelValues)
    (hI : levelInv s) : levelInv t := by
  unfold levelInv at hI ⊢
  rw [h1, h2, h3]
  exact hI

theorem decodePhase_ok_levelInv {s s1 : IterState} (h : decodePhase s = DecodeOut.ok s1)
    (hI : levelInv s) : levelInv s1 := by
  unfold decodePhase at h
  split at h
  · split at h
    case h_1 r s2 e s3 heq => exact absurd h (by simp)
    case h_2 r s2 vs s3 heq =>
      obtain ⟨p2, hs2⟩ := retrieveRunLength_state s
      rw [heq] at hs2
      simp only at hs2
      split at h
      · exact absurd h (by simp)
      case h_2 lt level times hlt =>
        split at h
        case isTrue hl =>
          have h4 := (DecodeOut.ok.injEq .. ).mp h
          subst h4
          refine ⟨fun _ => rfl, fun hge => ?_⟩
          simp only at hge
          omega
        case isFalse hl =>
          split at h
          case h_1 pv hpv =>
            have h4 := (DecodeOut.ok.injEq .. ).mp h
            subst h4
            refine ⟨fun h0 => absurd (by simpa using h0) hl, fun h1 => ?_⟩
            simpa using hpv.symm
          case h_2 hpv => exact absurd h (by simp)
  · have h4 := (DecodeOut.ok.injEq .. ).mp h
    subst h4
    exact hI

theorem next_levelInv {s : IterState} {r : NextResult} {s1 : IterState}
    (h : next s = (r, s1)) (hI : levelInv s) : levelInv s1 := by
  cases r with
  | done =>
    obtain ⟨h1, -⟩ := next_done_eq h
    subst h1; exact hI
  | panics =>
    have h1 := next_panics_eq h
    subst h1; exact hI
  | error e =>
    rcases next_error_eq h with ⟨h1, -⟩ | hd
    · subst h1; exact hI
    · obtain ⟨p, rb, hs1⟩ := decodePhase_err_shape hd
      subst hs1
      exact levelInv_congr rfl rfl rfl hI
  | item v =>
    obtain ⟨-, s2, hd, hE⟩ := next_item_eq h
    have hI2 := decodePhase_ok_levelInv hd hI
    have hs1 : s1 = (emitStep s2).2 := (congrArg Prod.snd hE).symm
    subst hs1
    unfold emitStep
    split
    · exact levelInv_congr rfl rfl rfl hI2
    · exact levelInv_congr rfl rfl rfl hI2

theorem next_item_val {s : IterState} {v : GValue} {s1 : IterState}
    (h : next s = (NextResult.item v, s1)) (hI : levelInv s) :
    (v.level = 0 → v.value = none) ∧
    (1 ≤ v.level → v.value = s.levelValues.get? (v.level - 1)) := by
  obtain ⟨-, s2, hd, hE⟩ := next_item_eq h
  have hI2 := decodePhase_ok_levelInv hd hI
  obtain ⟨p, rb, lv, cv, rt, hs2⟩ := decodePhase_ok_shape hd
  have hlv : s2.levelValues = s.levelValues := by rw [hs2]
  have hv : v = ⟨s2.currentLat, s2.currentLon, s2.currentLevel, s2.currentValue⟩ := by
    have hf : (emitStep s2).1 = v := congrArg Prod.fst hE
    rw [← hf]
    unfold emitStep
    split <;> rfl
  subst hv
  exact ⟨fun h0 => hI2.1 h0, fun h1 => (hI2.2 h1).trans (by rw [hlv])⟩

theorem consume_items_spec :
    ∀ (fuel : Nat) (s : IterState), levelInv s →
      ∀ v ∈ itemsOf (consume fuel s).1,
        (v.level = 0 → v.value = none) ∧
        (1 ≤ v.level → v.value = s.levelValues.get? (v.level - 1)) := by
  intro fuel
  induction fuel with
  | zero => intro s hI v hv; simp [consume, itemsOf] at hv
  | succ fuel ih =>
    intro s hI v hv
    simp only [consume] at hv
    rcases hn : next s with ⟨r, s2⟩
    rw [hn] at hv
    cases r with
    | done => simp [itemsOf] at hv
    | panics => simp [itemsOf] at hv
    | item w =>
      simp only at hv
      rcases hc : consume fuel s2 with ⟨rs2, s3, b⟩
      rw [hc] at hv
      simp only [itemsOf] at hv
      rcases List.mem_cons.mp hv with rfl | hmem
      · exact next_item_val hn hI
      · have hI2 := next_levelInv hn hI
        have hlv : s2.levelValues = s.levelValues := (next_fields hn).2.1
        have hrec := ih s2 hI2 v (by rw [hc]; exact hmem)
        rw [hlv] at hrec
        exact hrec
    | error e =>
      simp only at hv
      rcases hc : consume fuel s2 with ⟨rs2, s3, b⟩
      rw [hc] at hv
      simp only [itemsOf] at hv
      have hI2 := next_levelInv hn hI
      have hlv : s2.levelValues = s.levelValues := (next_fields hn).2.1
      have hrec := ih s2 hI2 v (by rw [hc]; exact hv)
      rw [hlv] at hrec
      exact hrec

/-!
## Claims about the iterator
-/

/-- Claim C2: for every `Grib2ValueIter` constructed over a compressed
payload of `total_bytes` bytes with point count `number_of_data_points`,
full consumption of the iterator — calling `next()` until it returns
`None` — yields exactly `number_of_data_points` successful values,
never fewer and never more.  (Stated over every run that does reach
`None`; a run that never reaches `None` is not a full consumption.) -/
theorem full_consumption_count (data : List Nat)
    (totalBytes numberOfPoints latMax lonMin lonMax latInc lonInc nbit maxv : Nat)
    (levelValues : List Nat) (fuel : Nat) (rs : List NextResult) (sEnd : IterState)
    (hrun : consume fuel (Grib2ValueIter.new data totalBytes numberOfPoints latMax
        lonMin lonMax latInc lonInc nbit maxv levelValues) = (rs, sEnd, true)) :
    (itemsOf rs).length = numberOfPoints := by
  have h := consume_done_count fuel _ rs sEnd hrun
  simpa [Grib2ValueIter.new] using h

/-- Witness for `full_consumption_count`: a one-point grid whose payload
is the single group `[3]` (the trailing `0` starts the next section and
terminates the group) yields exactly one value. -/
theorem full_consumption_count_witness :
    (itemsOf (consume 2 (Grib2ValueIter.new [3, 0] 1 1 36000000 140000000 141000000
        12500 15625 4 10 [5, 6, 7])).1).length = 1 :=
  full_consumption_count [3, 0] 1 1 36000000 140000000 141000000 12500 15625 4 10
    [5, 6, 7] 2 _ _ rfl

/-- The traversal step of one emission: the emitted value carries the
pre-move coordinates, then the longitude advances by the column
increment, wrapping to `(lon_min, lat - lat_inc)` when it would pass
`lon_max`. -/
theorem next_item_coords {s : IterState} {v : GValue} {s1 : IterState}
    (h : next s = (NextResult.item v, s1)) :
    v.lat = s.currentLat ∧ v.lon = s.currentLon ∧
    (s.lonMax < s.currentLon + s.lonInc →
      s1.currentLon = s.lonMin ∧ s1.currentLat = s.currentLat - s.latInc) ∧
    (¬ s.lonMax < s.currentLon + s.lonInc →
      s1.currentLon = s.currentLon + s.lonInc ∧ s1.currentLat = s.currentLat) := by
  obtain ⟨-, s2, hd, hE⟩ := next_item_eq h
  obtain ⟨p, rb, lv, cv, rt, hs2⟩ := decodePhase_ok_shape hd
  subst hs2
  unfold emitStep at hE
  split at hE
  case isTrue hcond =>
    have hv : _ = v := congrArg Prod.fst hE
    have hs : _ = s1 := congrArg Prod.snd hE
    subst hv
    subst hs
    simp only at hcond
    exact ⟨rfl, rfl, fun _ => ⟨rfl, rfl⟩, fun hc => absurd hcond hc⟩
  case isFalse hcond =>
    have hv : _ = v := congrArg Prod.fst hE
    have hs : _ = s1 := congrArg Prod.snd hE
    subst hv
    subst hs
    simp only at hcond
    exact ⟨rfl, rfl, fun hc => absurd hc hcond, fun _ => ⟨rfl, rfl⟩⟩

/-- Claim C3: the first emitted value's coordinates equal the grid's
first-point latitude and first-point longitude; after each emitted
value the longitude advances by the column increment, and when it
would exceed the last-point longitude the latitude decreases by
exactly the row increment while the longitude resets to the
first-point longitude (row-major, west-to-east then north-to-south). -/
theorem grid_traversal_spec :
    (∀ (data : List Nat) (totalBytes numberOfPoints latMax lonMin lonMax latInc lonInc
        nbit maxv : Nat) (levelValues : List Nat) (v : GValue) (s1 : IterState),
      next (Grib2ValueIter.new data totalBytes numberOfPoints latMax lonMin lonMax
          latInc lonInc nbit maxv levelValues) = (NextResult.item v, s1) →
      v.lat = latMax ∧ v.lon = lonMin) ∧
    (∀ (s : IterState) (v : GValue) (s1 : IterState),
      next s = (NextResult.item v, s1) →
      v.lat = s.currentLat ∧ v.lon = s.currentLon ∧
      (s.lonMax < s.currentLon + s.lonInc →
        s1.currentLon = s.lonMin ∧ s1.currentLat = s.currentLat - s.latInc ∧
        (s.latInc ≤ s.currentLat → s1.currentLat + s.latInc = s.currentLat)) ∧
      (¬ s.lonMax < s.currentLon + s.lonInc →
        s1.currentLon = s.currentLon + s.lonInc ∧ s1.currentLat = s.currentLat)) := by
  constructor
  · intro data totalBytes numberOfPoints latMax lonMin lonMax latInc lonInc nbit maxv
      levelValues v s1 h
    have hc := next_item_coords h
    exact ⟨hc.1, hc.2.1⟩
  · intro s v s1 h
    have hc := next_item_coords h
    refine ⟨hc.1, hc.2.1, fun hb => ?_, hc.2.2.2⟩
    obtain ⟨h1, h2⟩ := hc.2.2.1 hb
    exact ⟨h1, h2, fun hle => by omega⟩

/-- Witness for `grid_traversal_spec` at a concrete first step: the
first value of a fresh iterator carries the first grid point. -/
theorem grid_traversal_spec_witness :
    (⟨300, 400, 2, some 8⟩ : GValue).lat = 300 ∧
    (⟨300, 400, 2, some 8⟩ : GValue).lon = 400 :=
  grid_traversal_spec.1 [2, 0] 1 1 300 400 500 7 9 4 10 [8, 8]
    ⟨300, 400, 2, some 8⟩ _ rfl

/-- Claim C4: every value emitted by the iterator has an absent
physical value exactly when its decoded level is 0, and a level of
`m ≥ 1` carries `level_values[m - 1]`, the m-th entry of the level
table. -/
theorem missing_value_mapping (data : List Nat)
    (totalBytes numberOfPoints latMax lonMin lonMax latInc lonInc nbit maxv : Nat)
    (levelValues : List Nat) (fuel : Nat) (v : GValue)
    (hv : v ∈ itemsOf (consume fuel (Grib2ValueIter.new data totalBytes numberOfPoints
        latMax lonMin lonMax latInc lonInc nbit maxv levelValues)).1) :
    (v.level = 0 → v.value = none) ∧
    (1 ≤ v.level → v.value = levelValues.get? (v.level - 1)) := by
  have hI : levelInv (Grib2ValueIter.new data totalBytes numberOfPoints latMax lonMin
      lonMax latInc lonInc nbit maxv levelValues) :=
    ⟨fun _ => rfl, fun h1 => absurd h1 (by simp [Grib2ValueIter.new])⟩
  have h := consume_items_spec fuel _ hI v hv
  simpa [Grib2ValueIter.new] using h

/-- Witness for `missing_value_mapping`: the single value decoded from
the group `[3]` carries level 3 and physical value `level_values[2]`. -/
theorem missing_value_mapping_witness :
    ((⟨1000, 2000, 3, some 7⟩ : GValue).level = 0 →
        (⟨1000, 2000, 3, some 7⟩ : GValue).value = none) ∧
    (1 ≤ (⟨1000, 2000, 3, some 7⟩ : GValue).level →
        (⟨1000, 2000, 3, some 7⟩ : GValue).value =
          [5, 6, 7].get? ((⟨1000, 2000, 3, some 7⟩ : GValue).level - 1)) :=
  missing_value_mapping [3, 0] 1 1 1000 2000 3000 10 20 4 10 [5, 6, 7] 2
    ⟨1000, 2000, 3, some 7⟩ (by decide)

/-- Claim C5 counterexample: exhausting the byte budget before
`number_of_data_points` values were emitted does NOT make the next
`next()` call return an `Unexpected` error when a decoded run is still
pending.  Concretely, over the payload `[9, 12]` (`total_bytes = 2`,
declared point count 5) the group expands to two values; after the
first emission the budget is exhausted and only one of five values was
emitted, yet the following call emits a second value. -/
theorem budget_exhaustion_counterexample :
    ((next (Grib2ValueIter.new [9, 12, 0] 2 5 1000 2000 3000 10 20 4 10
        [1, 1, 1, 1, 1, 1, 1, 1, 1])).2.totalBytes ≤
      (next (Grib2ValueIter.new [9, 12, 0] 2 5 1000 2000 3000 10 20 4 10
        [1, 1, 1, 1, 1, 1, 1, 1, 1])).2.readBytes) ∧
    ((next (Grib2ValueIter.new [9, 12, 0] 2 5 1000 2000 3000 10 20 4 10
        [1, 1, 1, 1, 1, 1, 1, 1, 1])).2.numberOfReads <
      (next (Grib2ValueIter.new [9, 12, 0] 2 5 1000 2000 3000 10 20 4 10
        [1, 1, 1, 1, 1, 1, 1, 1, 1])).2.numberOfPoints) ∧
    (next ((next (Grib2ValueIter.new [9, 12, 0] 2 5 1000 2000 3000 10 20 4 10
        [1, 1, 1, 1, 1, 1, 1, 1, 1])).2)).1 =
      NextResult.item ⟨1000, 2020, 9, some 1⟩ ∧
    (next ((next (Grib2ValueIter.new [9, 12, 0] 2 5 1000 2000 3000 10 20 4 10
        [1, 1, 1, 1, 1, 1, 1, 1, 1])).2)).1 ≠
      NextResult.error RErr.unexpected := by
  decide

/-- Claim C5 (amended): when the byte budget is exhausted before
`number_of_data_points` values were emitted AND no decoded run is
still pending (`returning_times = 0`), the next call to `next()`
returns an `Unexpected` error through the per-item result channel —
it neither panics nor silently ends the stream, and it leaves the
state unchanged. -/
theorem budget_exhaustion_error (s : IterState) (h0 : s.returningTimes = 0)
    (hb : s.totalBytes ≤ s.readBytes) (hn : s.numberOfReads ≠ s.numberOfPoints) :
    next s = (NextResult.error RErr.unexpected, s) := by
  rw [next_guard_true h0 hb, if_neg hn]

/-- Witness for `budget_exhaustion_error` at a concrete exhausted
state. -/
theorem budget_exhaustion_error_witness :
    next { data := [], pos := 0, totalBytes := 1, numberOfPoints := 4, lonMin := 0,
           lonMax := 0, latInc := 0, lonInc := 0, maxv := 0, lngu := 0,
           levelValues := [], readBytes := 1, currentLat := 0, currentLon := 0,
           currentLevel := 0, currentValue := none, returningTimes := 0,
           numberOfReads := 2 } =
      (NextResult.error RErr.unexpected,
        { data := [], pos := 0, totalBytes := 1, numberOfPoints := 4, lonMin := 0,
          lonMax := 0, latInc := 0, lonInc := 0, maxv := 0, lngu := 0,
          levelValues := [], readBytes := 1, currentLat := 0, currentLon := 0,
          currentLevel := 0, currentValue := none, returningTimes := 0,
          numberOfReads := 2 }) :=
  budget_exhaustion_error _ rfl (by decide) (by decide)

theorem expandRunLength_some {vs : List Nat} {maxv lngu level times : Nat}
    (h : expandRunLength vs maxv lngu = some (level, times)) :
    vs.headD 0 = level ∧ level ≤ maxv := by
  cases vs with
  | nil => simp [expandRunLength] at h
  | cons v0 rest =>
    simp only [expandRunLength] at h
    by_cases hv : v0 ≤ maxv
    · rw [if_pos hv] at h
      by_cases hr : rest.isEmpty
      · rw [if_pos hr] at h
        simp only [Option.some.injEq, Prod.mk.injEq] at h
        exact ⟨h.1, h.1 ▸ hv⟩
      · rw [if_neg hr] at h
        simp only [Option.some.injEq, Prod.mk.injEq] at h
        exact ⟨h.1, h.1 ▸ hv⟩
    · rw [if_neg hv] at h
      simp at h

theorem decodePhase_of_retrieve_ok {s : IterState} {vs : List Nat} {s1 : IterState}
    (h0 : s.returningTimes = 0) (hR : retrieveRunLength s = (Except.ok vs, s1)) :
    decodePhase s = match expandRunLength vs s.maxv s.lngu with
      | none => DecodeOut.panics
      | some (level, times) =>
        if level = 0 then
          DecodeOut.ok { s1 with currentLevel := level, currentValue := none,
                                 returningTimes := times }
        else
          match s1.levelValues.get? (level - 1) with
          | some pv => DecodeOut.ok { s1 with currentLevel := level,
                                              currentValue := some pv,
                                              returningTimes := times }
          | none => DecodeOut.panics := by
  unfold decodePhase
  rw [if_pos h0, hR]

/-- Claim C9: every run-length group produced by `retrieve_run_length`
has all symbols after the first strictly greater than `maxv`, so the
digit subtraction `d - (maxv + 1)` inside `expand_run_length` never
underflows; and a decode step of `next()` emits a value without
panicking only when the group's first symbol is at most `maxv` (else
the `assert!` in `expand_run_length` fires) and the decoded level is
at most the level-table length (else `level_values[level - 1]` is out
of bounds) — violating either precondition makes the call panic. -/
theorem run_length_preconditions :
    (∀ (s : IterState) (vs : List Nat) (s1 : IterState),
        retrieveRunLength s = (Except.ok vs, s1) →
        ∀ d ∈ vs.drop 1, s.maxv < d) ∧
    (∀ (s : IterState) (vs : List Nat) (s1 : IterState),
        s.returningTimes = 0 → s.readBytes < s.totalBytes →
        retrieveRunLength s = (Except.ok vs, s1) →
        (s.maxv < vs.headD 0 → (next s).1 = NextResult.panics) ∧
        (∀ level times, expandRunLength vs s.maxv s.lngu = some (level, times) →
            1 ≤ level → s.levelValues.length < level →
            (next s).1 = NextResult.panics) ∧
        (∀ v s2, next s = (NextResult.item v, s2) →
          vs.headD 0 ≤ s.maxv ∧
          ∀ level times, expandRunLength vs s.maxv s.lngu = some (level, times) →
            level = 0 ∨ level ≤ s.levelValues.length)) := by
  constructor
  · intro s vs s1 h
    unfold retrieveRunLength at h
    rcases hL : retrieveLoop s.maxv (s.data.drop s.pos) [] with ⟨r, k⟩
    rw [hL] at h
    have h1 : r = Except.ok vs := congrArg Prod.fst h
    subst h1
    exact retrieveLoop_tail s.maxv (s.data.drop s.pos) [] vs k (by simp) hL
  · intro s vs s1 h0 hlt hR
    have hg : ¬ (s.returningTimes = 0 ∧ s.totalBytes ≤ s.readBytes) :=
      fun hx => absurd hx.2 (by omega)
    refine ⟨?_, ?_, ?_⟩
    · intro hgt
      obtain ⟨-, hne, -⟩ := retrieveRunLength_ok s vs s1 hR
      have hE : expandRunLength vs s.maxv s.lngu = none := by
        cases vs with
        | nil => simp at hne
        | cons v0 rest =>
          simp only [List.headD_cons] at hgt
          simp only [expandRunLength]
          rw [if_neg (by omega)]
      simp [next_guard_false hg, decodePhase_of_retrieve_ok h0 hR, hE]
    · intro level times hE hge hlen
      obtain ⟨hs1, -, -⟩ := retrieveRunLength_ok s vs s1 hR
      have hnone : s1.levelValues.get? (level - 1) = none := by
        rw [hs1]
        exact List.get?_eq_none.mpr (by simp; omega)
      have hl0 : ¬ level = 0 := by omega
      have hnone2 : s1.levelValues[level - 1]? = none := by
        rw [← List.get?_eq_getElem?]
        exact hnone
      simp [next_guard_false hg, decodePhase_of_retrieve_ok h0 hR, hE, hl0, hnone, hnone2]
    · intro v s2 hnext
      obtain ⟨-, s3, hd, -⟩ := next_item_eq hnext
      rw [decodePhase_of_retrieve_ok h0 hR] at hd
      constructor
      · cases hE : expandRunLength vs s.maxv s.lngu with
        | none => rw [hE] at hd; simp at hd
        | some lt =>
          rcases lt with ⟨level, times⟩
          have hs := expandRunLength_some hE
          rw [hs.1]
          exact hs.2
      · intro level times hE
        rw [hE] at hd
        by_cases hl : level = 0
        · exact Or.inl hl
        · right
          simp only at hd
          rw [if_neg hl] at hd
          cases hg2 : s1.levelValues.get? (level - 1) with
          | none => rw [hg2] at hd; simp at hd
          | some pv =>
            obtain ⟨hlt2, -⟩ := List.get?_eq_some.mp hg2
            have hlv : s1.levelValues = s.levelValues := by
              obtain ⟨hs1, -, -⟩ := retrieveRunLength_ok s vs s1 hR
              rw [hs1]
            rw [hlv] at hlt2
            omega

/-- Witness for `run_length_preconditions`: the group `[9, 12]`
retrieved over the payload `[9, 12, 0]` has its single digit symbol
`12` above `maxv = 10`. -/
theorem run_length_preconditions_witness :
    ∀ d ∈ ([9, 12].drop 1),
      (Grib2ValueIter.new [9, 12, 0] 2 5 0 0 0 0 0 4 10 []).maxv < d :=
  run_length_preconditions.1
    (Grib2ValueIter.new [9, 12, 0] 2 5 0 0 0 0 0 4 10 []) [9, 12] _ rfl

/-- Claim C10: after every successful `retrieve_run_length` call the
stream position and `read_bytes` both advanced by exactly the group's
symbol count — the look-ahead byte read to detect the boundary is given
back by `seek_relative(-1)` with `read_bytes` decremented — so both
stand exactly at the first symbol of the next group, which is a level
symbol (`≤ maxv`), and `read_bytes` equals the compressed payload
bytes consumed so far. -/
theorem retrieve_position_spec (s : IterState) (vs : List Nat) (s1 : IterState)
    (h : retrieveRunLength s = (Except.ok vs, s1)) :
    s1.pos = s.pos + vs.length ∧ s1.readBytes = s.readBytes + vs.length ∧
      ∃ t ∈ s1.data.get? s1.pos, t ≤ s.maxv := by
  obtain ⟨hs1, -, ht⟩ := retrieveRunLength_ok s vs s1 h
  subst hs1
  exact ⟨rfl, rfl, ht⟩

/-- Witness for `retrieve_position_spec` over the payload `[9, 12, 0]`:
the cursor and `read_bytes` end on the terminator `0`. -/
theorem retrieve_position_spec_witness :
    (retrieveRunLength (Grib2ValueIter.new [9, 12, 0] 2 5 0 0 0 0 0 4 10 [7])).2.pos =
        (Grib2ValueIter.new [9, 12, 0] 2 5 0 0 0 0 0 4 10 [7]).pos + [9, 12].length ∧
    (retrieveRunLength (Grib2ValueIter.new [9, 12, 0] 2 5 0 0 0 0 0 4 10 [7])).2.readBytes =
        (Grib2ValueIter.new [9, 12, 0] 2 5 0 0 0 0 0 4 10 [7]).readBytes + [9, 12].length ∧
    ∃ t ∈ (retrieveRunLength (Grib2ValueIter.new [9, 12, 0] 2 5 0 0 0 0 0 4 10 [7])).2.data.get?
        ((retrieveRunLength (Grib2ValueIter.new [9, 12, 0] 2 5 0 0 0 0 0 4 10 [7])).2.pos),
      t ≤ (Grib2ValueIter.new [9, 12, 0] 2 5 0 0 0 0 0 4 10 [7]).maxv :=
  retrieve_position_spec (Grib2ValueIter.new [9, 12, 0] 2 5 0 0 0 0 0 4 10 [7]) [9, 12] _ rfl

/-!
## Section/template binary parsers (`grib2/src/reader/sections.rs`)

The `FileReader` is modelled as a byte list with an absolute cursor.
`read_exact` either delivers the requested bytes and advances, or
fails with `ReadError` (a short read); multi-byte integers are
big-endian (`from_be_bytes`).
-/

/-- A buffered, seekable byte source over a file with its absolute
read position. -/
structure Cursor where
  data : List Nat
  pos : Nat
deriving DecidableEq, Repr

/-- `Read::read_exact` over the model: all-or-nothing. -/
def Cursor.readExact (c : Cursor) (n : Nat) : Except RErr (List Nat × Cursor) :=
  if c.pos + n ≤ c.data.length then
    Except.ok ((c.data.drop c.pos).take n, { c with pos := c.pos + n })
  else Except.error RErr.readError

/-- Big-endian value of a byte list (`<$ty>::from_be_bytes`). -/
def beNat (bs : List Nat) : Nat := bs.foldl (fun acc b => acc * 256 + b) 0

/-- `read_u8` (sections.rs, the `read_number!` macro at 1488-1505). -/
def read_u8 (c : Cursor) : Except RErr (Nat × Cursor) := do
  let (bs, c1) ← c.readExact 1
  pure (beNat bs, c1)

/-- `read_u16` (sections.rs `read_number!`). -/
def read_u16 (c : Cursor) : Except RErr (Nat × Cursor) := do
  let (bs, c1) ← c.readExact 2
  pure (beNat bs, c1)

/-- `read_u32` (sections.rs `read_number!`). -/
def read_u32 (c : Cursor) : Except RErr (Nat × Cursor) := do
  let (bs, c1) ← c.readExact 4
  pure (beNat bs, c1)

/-- `read_u64` (sections.rs `read_number!`). -/
def read_u64 (c : Cursor) : Except RErr (Nat × Cursor) := do
  let (bs, c1) ← c.readExact 8
  pure (beNat bs, c1)

/-- `read_i32` (sections.rs:1507-1519): sign-magnitude, not
two's-complement — the top bit of the first byte is the sign, the
remaining 31 bits the magnitude. -/
def read_i32 (c : Cursor) : Except RErr (Int × Cursor) := do
  let (bs, c1) ← c.readExact 4
  let b0 := bs.headD 0
  let sign : Int := if 128 ≤ b0 then -1 else 1
  pure (sign * (beNat ((b0 % 128) :: bs.drop 1) : Int), c1)

/-- `validate_u8` (sections.rs `validate_number!` at 1522-1544): a
short read is `ReadError`, a value mismatch is `Unexpected`. -/
def validate_u8 (c : Cursor) (expected : Nat) : Except RErr (Nat × Cursor) := do
  let (v, c1) ← read_u8 c
  if v ≠ expected then Except.error RErr.unexpected else pure (v, c1)

/-- `validate_u32` (sections.rs `validate_number!`). -/
def validate_u32 (c : Cursor) (expected : Nat) : Except RErr (Nat × Cursor) := do
  let (v, c1) ← read_u32 c
  if v ≠ expected then Except.error RErr.unexpected else pure (v, c1)

/-- Grid-definition template number for template 3.0 (sections.rs:15). -/
def LAT_LON_GRID_DEFINITION_TEMPLATE_NUMBER : Nat := 0

/-- Default product-definition template number (sections.rs:18). -/
def DEFAULT_PRODUCT_DEFINITION_TEMPLATE_NUMBER : Nat := 0

/-- Run-length data-representation template number (sections.rs:24). -/
def RUN_LENGTH_DATA_REPRESENTATION_TEMPLATE_NUMBER : Nat := 200

/-- The `validate_template_number!` macro (sections.rs:592-604): a
mismatched template number returns `ReaderError::ReadError` carrying
an expected/actual message. -/
def validate_template_number (templateNumber expected : Nat) : Except RErr Unit :=
  if templateNumber ≠ expected then Except.error RErr.readError else Except.ok ()

/-- Template 3.0 (latitude/longitude grid), sections.rs:115-175. -/
structure Template3_0 where
  shape_of_earth : Nat
  scale_factor_of_radius_of_spherical_earth : Nat
  scaled_value_of_radius_of_spherical_earth : Nat
  scale_factor_of_earth_major_axis : Nat
  scaled_value_of_earth_major_axis : Nat
  scale_factor_of_earth_minor_axis : Nat
  scaled_value_of_earth_minor_axis : Nat
  number_of_along_lat_points : Nat
  number_of_along_lon_points : Nat
  basic_angle_of_initial_product_domain : Nat
  subdivisions_of_basic_angle : Nat
  lat_of_first_grid_point : Nat
  lon_of_first_grid_point : Nat
  resolution_and_component_flags : Nat
  lat_of_last_grid_point : Nat
  lon_of_last_grid_point : Nat
  i_direction_increment : Nat
  j_direction_increment : Nat
  scanning_mode : Nat
deriving DecidableEq, Repr

/-- `Template3_0::from_reader` (sections.rs:744-820): validate the
template number first, then read the nineteen fixed fields. -/
def Template3_0.fromReader (c : Cursor) (template_number : Nat) :
    Except RErr (Template3_0 × Cursor) := do
  let _ ← validate_template_number template_number LAT_LON_GRID_DEFINITION_TEMPLATE_NUMBER
  let (shape_of_earth, c) ← read_u8 c
  let (scale_factor_of_radius_of_spherical_earth, c) ← read_u8 c
  let (scaled_value_of_radius_of_spherical_earth, c) ← read_u32 c
  let (scale_factor_of_earth_major_axis, c) ← read_u8 c
  let (scaled_value_of_earth_major_axis, c) ← read_u32 c
  let (scale_factor_of_earth_minor_axis, c) ← read_u8 c
  let (scaled_value_of_earth_minor_axis, c) ← read_u32 c
  let (number_of_along_lat_points, c) ← read_u32 c
  let (number_of_along_lon_points, c) ← read_u32 c
  let (basic_angle_of_initial_product_domain, c) ← read_u32 c
  let (subdivisions_of_basic_angle, c) ← read_u32 c
  let (lat_of_first_grid_point, c) ← read_u32 c
  let (lon_of_first_grid_point, c) ← read_u32 c
  let (resolution_and_component_flags, c) ← read_u8 c
  let (lat_of_last_grid_point, c) ← read_u32 c
  let (lon_of_last_grid_point, c) ← read_u32 c
  let (i_direction_increment, c) ← read_u32 c
  let (j_direction_increment, c) ← read_u32 c
  let (scanning_mode, c) ← read_u8 c
  pure ({ shape_of_earth, scale_factor_of_radius_of_spherical_earth,
          scaled_value_of_radius_of_spherical_earth, scale_factor_of_earth_major_axis,
          scaled_value_of_earth_major_axis, scale_factor_of_earth_minor_axis,
          scaled_value_of_earth_minor_axis, number_of_along_lat_points,
          number_of_along_lon_points, basic_angle_of_initial_product_domain,
          subdivisions_of_basic_angle, lat_of_first_grid_point, lon_of_first_grid_point,
          resolution_and_component_flags, lat_of_last_grid_point, lon_of_last_grid_point,
          i_direction_increment, j_direction_increment, scanning_mode }, c)

/-- Template 4.0 (default product definition), sections.rs:195-243. -/
structure Template4_0 where
  parameter_category : Nat
  parameter_number : Nat
  type_of_generating_process : Nat
  background_process : Nat
  generating_process_identifier : Nat
  hours_after_data_cutoff : Nat
  minutes_after_data_cutoff : Nat
  indicator_of_unit_of_time_range : Nat
  forecast_time : Int
  type_of_first_fixed_surface : Nat
  scale_factor_of_first_fixed_surface : Nat
  scaled_value_of_first_fixed_surface : Nat
  type_of_second_fixed_surface : Nat
  scale_factor_of_second_fixed_surface : Nat
  scaled_value_of_second_fixed_surface : Nat
deriving DecidableEq, Repr

/-- `Template4_0::from_reader` (sections.rs:849-910). -/
def Template4_0.fromReader (c : Cursor) (template_number : Nat) :
    Except RErr (Template4_0 × Cursor) := do
  let _ ← validate_template_number template_number DEFAULT_PRODUCT_DEFINITION_TEMPLATE_NUMBER
  let (parameter_category, c) ← read_u8 c
  let (parameter_number, c) ← read_u8 c
  let (type_of_generating_process, c) ← read_u8 c
  let (background_process, c) ← read_u8 c
  let (generating_process_identifier, c) ← read_u8 c
  let (hours_after_data_cutoff, c) ← read_u16 c
  let (minutes_after_data_cutoff, c) ← read_u8 c
  let (indicator_of_unit_of_time_range, c) ← read_u8 c
  let (forecast_time, c) ← read_i32 c
  let (type_of_first_fixed_surface, c) ← read_u8 c
  let (scale_factor_of_first_fixed_surface, c) ← read_u8 c
  let (scaled_value_of_first_fixed_surface, c) ← read_u32 c
  let (type_of_second_fixed_surface, c) ← read_u8 c
  let (scale_factor_of_second_fixed_surface, c) ← read_u8 c
  let (scaled_value_of_second_fixed_surface, c) ← read_u32 c
  pure ({ parameter_category, parameter_number, type_of_generating_process,
          background_process, generating_process_identifier, hours_after_data_cutoff,
          minutes_after_data_cutoff, indicator_of_unit_of_time_range, forecast_time,
          type_of_first_fixed_surface, scale_factor_of_first_fixed_surface,
          scaled_value_of_first_fixed_surface, type_of_second_fixed_surface,
          scale_factor_of_second_fixed_surface, scaled_value_of_second_fixed_surface }, c)

/-- The level-value loop of `Template5_200::from_reader`
(sections.rs:1272-1276): read `number_of_levels` big-endian `u16`s. -/
def readLevelValues : Nat → Cursor → Except RErr (List Nat × Cursor)
  | 0, c => Except.ok ([], c)
  | n + 1, c => do
    let (v, c1) ← read_u16 c
    let (vs, c2) ← readLevelValues n c1
    pure (v :: vs, c2)

/-- Template 5.200 (run-length data representation),
sections.rs (struct `Template5_200`). -/
structure Template5_200 where
  max_level_value : Nat
  number_of_level_values : Nat
  decimal_scale_factor : Nat
  level_values : List Nat
deriving DecidableEq, Repr

/-- `Template5_200::from_reader` (sections.rs:1253-1285): validate the
template number, read MAXV, the level count and the scale factor, then
size the level table as `(template_bytes - 5) / 2` from the declared
section length. -/
def Template5_200.fromReader (c : Cursor) (template_number template_bytes : Nat) :
    Except RErr (Template5_200 × Cursor) := do
  let _ ← validate_template_number template_number
    RUN_LENGTH_DATA_REPRESENTATION_TEMPLATE_NUMBER
  let (max_level_value, c) ← read_u16 c
  let (number_of_level_values, c) ← read_u16 c
  let (decimal_scale_factor, c) ← read_u8 c
  let number_of_levels := (template_bytes - (2 + 2 + 1)) / 2
  let (level_values, c) ← readLevelValues number_of_levels c
  pure ({ max_level_value, number_of_level_values, decimal_scale_factor,
          level_values }, c)

/-- Template 7.200 (run-length data), sections.rs:570-579: only the
payload's absolute offset and byte length are stored. -/
structure Template7_200 where
  run_length_position : Nat
  run_length_bytes : Nat
deriving DecidableEq, Repr

/-- `Template7_200::from_reader` (sections.rs:1327-1358): validate the
template number, record the cursor's absolute position
(`stream_position`) as the payload offset, then `seek_relative` past
exactly `template_bytes` bytes without reading them. -/
def Template7_200.fromReader (c : Cursor) (template_number template_bytes : Nat) :
    Except RErr (Template7_200 × Cursor) := do
  let _ ← validate_template_number template_number
    RUN_LENGTH_DATA_REPRESENTATION_TEMPLATE_NUMBER
  let run_length_position := c.pos
  let c1 : Cursor := { c with pos := c.pos + template_bytes }
  pure ({ run_length_position, run_length_bytes := template_bytes }, c1)

/-- Section 7 (data section), sections.rs:560-567. -/
structure Section7 where
  section_bytes : Nat
  template7 : Template7_200
deriving DecidableEq, Repr

/-- `Section7::from_reader` (sections.rs:1303-1325): read the 4-byte
section length, validate the section number 7, and hand the template
parser the remaining declared byte count `section_bytes - (4 + 1)`. -/
def Section7.fromReader (c : Cursor) : Except RErr (Section7 × Cursor) := do
  let (section_bytes, c) ← read_u32 c
  let (_, c) ← validate_u8 c 7
  let template_bytes := section_bytes - (4 + 1)
  let (template7, c) ← Template7_200.fromReader c
    RUN_LENGTH_DATA_REPRESENTATION_TEMPLATE_NUMBER template_bytes
  pure ({ section_bytes, template7 }, c)

/-!
## Claims about the section parsers and reader construction
-/

theorem except_error_bind {ε α β : Type} (e : ε) (f : α → Except ε β) :
    (Except.error e : Except ε α) >>= f = Except.error e := rfl

theorem except_ok_bind {ε α β : Type} (a : α) (f : α → Except ε β) :
    (Except.ok a : Except ε α) >>= f = f a := rfl

/-- Claim C7 counterexample: parsing template 3 with the unsupported
template number 1 fails with the `ReadError` variant produced by
`validate_template_number!`, not with the `Unexpected` variant the
claim requires for a format-invariant violation. -/
theorem template_mismatch_counterexample :
    Template3_0.fromReader ⟨[], 0⟩ 1 = Except.error RErr.readError ∧
    RErr.readError ≠ RErr.unexpected := by
  exact ⟨rfl, by decide⟩

/-- Claim C7 (amended): for every template-generic section (3, 4, 5, 7)
parsing with a template number that does not match the supported
template fails hard and is never silently ignored — but the error kind
is the `ReadError` variant emitted by `validate_template_number!`, not
the `Unexpected` (format-invariant) variant. -/
theorem template_mismatch_error (c : Cursor) (tn tb : Nat) :
    (tn ≠ LAT_LON_GRID_DEFINITION_TEMPLATE_NUMBER →
        Template3_0.fromReader c tn = Except.error RErr.readError) ∧
    (tn ≠ DEFAULT_PRODUCT_DEFINITION_TEMPLATE_NUMBER →
        Template4_0.fromReader c tn = Except.error RErr.readError) ∧
    (tn ≠ RUN_LENGTH_DATA_REPRESENTATION_TEMPLATE_NUMBER →
        Template5_200.fromReader c tn tb = Except.error RErr.readError) ∧
    (tn ≠ RUN_LENGTH_DATA_REPRESENTATION_TEMPLATE_NUMBER →
        Template7_200.fromReader c tn tb = Except.error RErr.readError) := by
  refine ⟨fun h => ?_, fun h => ?_, fun h => ?_, fun h => ?_⟩ <;>
    simp [Template3_0.fromReader, Template4_0.fromReader, Template5_200.fromReader,
      Template7_200.fromReader, validate_template_number, h, except_error_bind]

/-- Witness for `template_mismatch_error` at template number 5 over an
arbitrary one-byte stream. -/
theorem template_mismatch_error_witness :
    Template3_0.fromReader ⟨[9], 0⟩ 5 = Except.error RErr.readError ∧
    Template4_0.fromReader ⟨[9], 0⟩ 5 = Except.error RErr.readError ∧
    Template5_200.fromReader ⟨[9], 0⟩ 5 3 = Except.error RErr.readError ∧
    Template7_200.fromReader ⟨[9], 0⟩ 5 3 = Except.error RErr.readError :=
  ⟨(template_mismatch_error ⟨[9], 0⟩ 5 3).1 (by decide),
   (template_mismatch_error ⟨[9], 0⟩ 5 3).2.1 (by decide),
   (template_mismatch_error ⟨[9], 0⟩ 5 3).2.2.1 (by decide),
   (template_mismatch_error ⟨[9], 0⟩ 5 3).2.2.2 (by decide)⟩

theorem read_u32_eq {c : Cursor} (h : c.pos + 4 ≤ c.data.length) :
    read_u32 c = Except.ok (beNat ((c.data.drop c.pos).take 4),
      { c with pos := c.pos + 4 }) := by
  unfold read_u32 Cursor.readExact
  rw [if_pos h]
  rfl

theorem validate_u8_eq {c : Cursor} {b : Nat}
    (h : c.pos + 1 ≤ c.data.length)
    (hb : (c.data.drop c.pos).take 1 = [b]) :
    validate_u8 c b = Except.ok (b, { c with pos := c.pos + 1 }) := by
  unfold validate_u8 read_u8 Cursor.readExact
  rw [if_pos h, hb]
  simp [beNat, except_ok_bind]
  rfl

/-- Claim C8: parsing Section 7 with template 200 never reads the
compressed payload into memory: with `L` the declared section length,
it records the absolute position right after the 5 header bytes as the
payload offset, stores the payload length `L - 5`, and advances the
cursor past exactly that many bytes, landing on the first byte after
Section 7.  (The returned `Template7_200` holds only the two numbers;
the model's cursor is advanced without its data being consulted,
mirroring `seek_relative`.) -/
theorem section7_records_offset (c : Cursor) (L : Nat)
    (h5 : c.pos + 5 ≤ c.data.length)
    (hL : beNat ((c.data.drop c.pos).take 4) = L)
    (hsec : (c.data.drop (c.pos + 4)).take 1 = [7])
    (hL5 : 5 ≤ L) :
    Section7.fromReader c = Except.ok
      ({ section_bytes := L,
         template7 := { run_length_position := c.pos + 5,
                        run_length_bytes := L - 5 } },
       { c with pos := c.pos + L }) := by
  have h1 : read_u32 c = Except.ok (L, { c with pos := c.pos + 4 }) := by
    rw [read_u32_eq (by omega), hL]
  have h2 : validate_u8 { c with pos := c.pos + 4 } 7 =
      Except.ok (7, { c with pos := c.pos + 5 }) := by
    have := validate_u8_eq (c := { c with pos := c.pos + 4 }) (b := 7)
      (by simp; omega) (by simpa using hsec)
    simpa using this
  unfold Section7.fromReader
  rw [h1]
  show (validate_u8 { c with pos := c.pos + 4 } 7).bind _ = _
  rw [h2]
  show Except.ok _ = _
  have hp : c.pos + 5 + (L - (4 + 1)) = c.pos + L := by omega
  simp [hp]

/-- Witness for `section7_records_offset` over the 7-byte section
`[0, 0, 0, 7, 7, 99, 99]` (declared length 7, section number 7, two
payload bytes). -/
theorem section7_records_offset_witness :
    Section7.fromReader ⟨[0, 0, 0, 7, 7, 99, 99], 0⟩ = Except.ok
      ({ section_bytes := 7,
         template7 := { run_length_position := 5, run_length_bytes := 2 } },
       ⟨[0, 0, 0, 7, 7, 99, 99], 7⟩) :=
  section7_records_offset ⟨[0, 0, 0, 7, 7, 99, 99], 0⟩ 7 (by decide) (by decide)
    (by decide) (by decide)

/-!
## Construction-time cross-section count validation (claim C6)
-/

/-- The cross-section count check performed by `Grib2Reader::new`
(src/reader/grib2_reader.rs:34-51) right after `Inner::read_to_end`
has parsed all sections: `number_of_points` is the Section 3 count,
`total_number_of_points` the Section 5 count; a mismatch is a hard
`Unexpected` failure before any grid value can be produced. -/
def grib2Reader_count_check (number_of_points total_number_of_points : Nat) :
    Except RErr Unit :=
  if number_of_points ≠ total_number_of_points then Except.error RErr.unexpected
  else Except.ok ()

/-- The Section 3 field that claim C6 is about. -/
structure Section3_0Data where
  number_of_data_points : Nat
deriving DecidableEq, Repr

/-- The Section 5 field that claim C6 is about. -/
structure Section5_200Data where
  number_of_values : Nat
deriving DecidableEq, Repr

/-- One forecast block of `FPprReader` (`FPprSections`,
grib2/src/reader/fppr.rs:25-46): sections 4-7 of one forecast hour;
only the Section 5 count participates in claim C6 (sections 4, 6, 7
carry no field the claim touches and are omitted). -/
structure FPprForecast where
  section5 : Section5_200Data
deriving DecidableEq, Repr

/-- `FPprReader::new` (grib2/src/reader/fppr.rs:63-88), modelled at the
point where each per-section `from_reader` call has succeeded with the
given parsed sections: the constructor merely aggregates the parsed
sections and returns `Ok`.  It performs no comparison between
`section3.number_of_data_points` and any forecast's
`section5.number_of_values` — and no `from_reader` signature receives
Section 3, so no such check can occur inside them either. -/
def fpprReader_new (section3 : Section3_0Data) (forecasts : List FPprForecast) :
    Except RErr (Section3_0Data × List FPprForecast) :=
  Except.ok (section3, forecasts)

/-- Claim C6 is violated by the code: with parsed sections declaring
`Section3.number_of_data_points = 4` and `Section5.number_of_values = 5`,
`FPprReader::new` still constructs successfully, while the same
mismatch makes `Grib2Reader::new` fail with `Unexpected`.  The claim
"constructing a product reader ... fails with an Unexpected error ...
for every supported product reader" therefore does not hold for
`FPprReader` (the spec itself flags this non-uniform validation as a
correctness gap). -/
theorem count_check_divergence :
    fpprReader_new ⟨4⟩ [⟨⟨5⟩⟩, ⟨⟨5⟩⟩, ⟨⟨5⟩⟩, ⟨⟨5⟩⟩, ⟨⟨5⟩⟩, ⟨⟨5⟩⟩] =
      Except.ok (⟨4⟩, [⟨⟨5⟩⟩, ⟨⟨5⟩⟩, ⟨⟨5⟩⟩, ⟨⟨5⟩⟩, ⟨⟨5⟩⟩, ⟨⟨5⟩⟩]) ∧
    grib2Reader_count_check 4 5 = Except.error RErr.unexpected :=
  ⟨rfl, rfl⟩

end Grib2
